import Mathlib

/-!
Verification development for the zoo-hub event automation worker.

The development shallowly embeds the worker's Python modules:
  * `rule_engine.py` — `match_rule`, `resolve_path`, `render_template`
    (the `TOKEN` regex substitution is embedded as a left-to-right scanner),
  * `worker.py` — the database operations `create_jobs_for_event`,
    `run_job`, `record_success`, `fail_job`, `finalize_event`,
    `scan_and_enqueue` as pure transformers of an explicit `DB` state,
  * `webhook_client.py` — the circuit-breaker row transitions
    `_on_success` / `_on_failure`.
Network and clock effects are passed in explicitly (execution outcomes as
an `ExecOutcome` parameter, the clock as a `Nat` parameter).
-/

/-- Structured JSON-like values, as they appear in rule configs, event
payloads and rendered job payloads.  Numbers are restricted to integers. -/
inductive Value where
  | null : Value
  | bool (b : Bool) : Value
  | int (n : Int) : Value
  | str (s : String) : Value
  | list (xs : List Value) : Value
  | dict (entries : List (String × Value)) : Value

mutual
/-- Boolean structural equality on values. -/
def beqV : Value → Value → Bool
  | .null, .null => true
  | .bool a, .bool b => a == b
  | .int a, .int b => a == b
  | .str a, .str b => a == b
  | .list xs, .list ys => beqL xs ys
  | .dict es, .dict fs => beqE es fs
  | _, _ => false

/-- Boolean structural equality on value lists. -/
def beqL : List Value → List Value → Bool
  | [], [] => true
  | x :: xs, y :: ys => beqV x y && beqL xs ys
  | _, _ => false

/-- Boolean structural equality on dict entry lists. -/
def beqE : List (String × Value) → List (String × Value) → Bool
  | [], [] => true
  | (k, v) :: es, (k2, v2) :: fs => k == k2 && beqV v v2 && beqE es fs
  | _, _ => false
end

mutual
theorem beqV_eq : ∀ a b : Value, beqV a b = true → a = b
  | .null, .null, _ => rfl
  | .bool a, .bool b, h => by simpa [beqV] using congrArg Value.bool (by simpa [beqV] using h)
  | .int a, .int b, h => by
    have : a = b := by simpa [beqV] using h
    exact congrArg Value.int this
  | .str a, .str b, h => by
    have : a = b := by simpa [beqV] using h
    exact congrArg Value.str this
  | .list xs, .list ys, h => by
    have : xs = ys := beqL_eq xs ys (by simpa [beqV] using h)
    exact congrArg Value.list this
  | .dict es, .dict fs, h => by
    have : es = fs := beqE_eq es fs (by simpa [beqV] using h)
    exact congrArg Value.dict this

theorem beqL_eq : ∀ xs ys : List Value, beqL xs ys = true → xs = ys
  | [], [], _ => rfl
  | x :: xs, y :: ys, h => by
    have h' : beqV x y = true ∧ beqL xs ys = true := by simpa [beqL] using h
    rw [beqV_eq x y h'.1, beqL_eq xs ys h'.2]

theorem beqE_eq : ∀ es fs : List (String × Value), beqE es fs = true → es = fs
  | [], [], _ => rfl
  | (k, v) :: es, (k2, v2) :: fs, h => by
    have h' : (k == k2 && beqV v v2) = true ∧ beqE es fs = true := by simpa [beqE] using h
    have hk : k = k2 := by
      have := h'.1
      simp only [Bool.and_eq_true, beq_iff_eq] at this
      exact this.1
    have hv : v = v2 := beqV_eq v v2 (by
      have := h'.1
      simp only [Bool.and_eq_true] at this
      exact this.2)
    rw [hk, hv, beqE_eq es fs h'.2]
end

mutual
theorem beqV_refl : ∀ a : Value, beqV a a = true
  | .null => rfl
  | .bool a => by simp [beqV]
  | .int a => by simp [beqV]
  | .str a => by simp [beqV]
  | .list xs => by simpa [beqV] using beqL_refl xs
  | .dict es => by simpa [beqV] using beqE_refl es

theorem beqL_refl : ∀ xs : List Value, beqL xs xs = true
  | [] => rfl
  | x :: xs => by simp [beqL, beqV_refl x, beqL_refl xs]

theorem beqE_refl : ∀ es : List (String × Value), beqE es es = true
  | [] => rfl
  | (k, v) :: es => by simp [beqE, beqV_refl v, beqE_refl es]
end

instance : DecidableEq Value := fun a b =>
  if h : beqV a b = true then isTrue (beqV_eq a b h)
  else isFalse (fun he => h (he ▸ beqV_refl a))

/-- Left brace character, written by code to avoid brace literals. -/
def lbraceC : Char := Char.ofNat 123

/-- Right brace character. -/
def rbraceC : Char := Char.ofNat 125

/-- Left bracket character. -/
def lbrackC : Char := Char.ofNat 91

/-- Right bracket character. -/
def rbrackC : Char := Char.ofNat 93

/-- Single quote character. -/
def squoteC : Char := Char.ofNat 39

/-- Double quote character. -/
def dquoteC : Char := Char.ofNat 34

/-- Backslash character. -/
def bslashC : Char := Char.ofNat 92

/-- Characters stripped by Python `str.strip()` for ASCII input. -/
def isPySpace (c : Char) : Bool :=
  c = ' ' || c = '\t' || c = '\n' || c = '\r' || c = Char.ofNat 11 || c = Char.ofNat 12

/-- Python `str.strip()` on a character list. -/
def pyStrip (l : List Char) : List Char :=
  ((l.dropWhile isPySpace).reverse.dropWhile isPySpace).reverse

/-- Python `path.split(".")`: splits on every dot, keeping empty pieces. -/
def splitDot : List Char → List (List Char)
  | [] => [[]]
  | c :: rest =>
    if c = '.' then [] :: splitDot rest
    else
      match splitDot rest with
      | [] => [[c]]
      | x :: xs => (c :: x) :: xs

/-- First-match association lookup on dict entries (Python `p in cur` /
`cur[p]`; Python dict keys are unique, so first match is the match). -/
def lookupKey : List (String × Value) → String → Option Value
  | [], _ => none
  | (k, v) :: es, key => if k = key then some v else lookupKey es key

/-- Walk one path piece after the other through nested dicts; any missing
key or non-dict intermediate yields `none` (Python returns `None`). -/
def resolveParts : Value → List (List Char) → Option Value
  | cur, [] => some cur
  | cur, p :: ps =>
    match cur with
    | .dict es =>
      match lookupKey es (String.mk p) with
      | some v => resolveParts v ps
      | none => none
    | _ => none

/-- Embedding of `rule_engine.resolve_path`. -/
def resolve_path (ctx : Value) (path : List Char) : Option Value :=
  resolveParts ctx (splitDot path)

/-- Lower-case hexadecimal digit. -/
def hexDigit (d : Nat) : Char :=
  if d < 10 then Char.ofNat (48 + d) else Char.ofNat (97 + d - 10)

/-- Two-digit hexadecimal rendering of a byte. -/
def hexByte (n : Nat) : List Char :=
  [hexDigit (n / 16), hexDigit (n % 16)]

/-- Escaping of one character inside a Python string repr quoted by `q`. -/
def escapeChar (q : Char) (c : Char) : List Char :=
  if c = bslashC then [bslashC, bslashC]
  else if c = q then [bslashC, q]
  else if c = '\n' then [bslashC, 'n']
  else if c = '\r' then [bslashC, 'r']
  else if c = '\t' then [bslashC, 't']
  else if c.toNat < 32 || c.toNat = 127 then bslashC :: 'x' :: hexByte c.toNat
  else [c]

/-- Python `repr` of a string: single-quoted unless the string contains a
single quote and no double quote. -/
def reprChars (l : List Char) : List Char :=
  let q := if l.contains squoteC && !l.contains dquoteC then dquoteC else squoteC
  (q :: l.flatMap (escapeChar q)) ++ [q]

mutual
/-- Python `repr` of a value. -/
def pyRepr : Value → List Char
  | .null => "None".data
  | .bool b => if b then "True".data else "False".data
  | .int n => (toString n).data
  | .str s => reprChars s.data
  | .list xs => (lbrackC :: pyReprList xs) ++ [rbrackC]
  | .dict es => (lbraceC :: pyReprEntries es) ++ [rbraceC]

/-- Python `", ".join(repr(x) for x in xs)`. -/
def pyReprList : List Value → List Char
  | [] => []
  | [v] => pyRepr v
  | v :: vs => (pyRepr v ++ (", ".data)) ++ pyReprList vs

/-- Python comma-joined `repr(k): repr(v)` rendering of dict items. -/
def pyReprEntries : List (String × Value) → List Char
  | [] => []
  | [(k, v)] => (reprChars k.data ++ (": ".data)) ++ pyRepr v
  | (k, v) :: es =>
    (((reprChars k.data ++ (": ".data)) ++ pyRepr v) ++ (", ".data)) ++ pyReprEntries es
end

/-- Python `str` of a value: the string itself for strings, `repr`-style
rendering otherwise (containers print their elements with `repr`). -/
def pyStr (v : Value) : List Char :=
  match v with
  | .str s => s.data
  | v => pyRepr v

/-- Replacement text for one matched token group, from `render_template`'s
inner `repl`: resolve the stripped path, then `"" if v is None else str(v)`
(a stored JSON null and a missing path are both Python `None`). -/
def replToken (ctx : Value) (grp : List Char) : List Char :=
  match resolve_path ctx (pyStrip grp) with
  | none => []
  | some .null => []
  | some v => pyStr v

/-- Match predicate of the regex group: any character other than a right
brace (the regex class excluding the right brace). -/
def notRB (d : Char) : Bool := d != rbraceC

/-- Fuel-indexed left-to-right scan implementing
`re.sub(r"(two braces)([^bracket]+)(two braces)", repl, s)`: at each
position, a match needs two left braces, then a nonempty run of
non-right-brace characters, then two right braces; on a match the token is
replaced and scanning resumes after it, otherwise one character is emitted
and scanning resumes at the next position.  Fuel `≥ length` always
suffices since every step consumes at least one character. -/
def renderAux : Nat → Value → List Char → List Char
  | 0, _, l => l
  | _ + 1, _, [] => []
  | _ + 1, _, [c] => [c]
  | fuel + 1, ctx, c :: c2 :: rest2 =>
    if c = lbraceC ∧ c2 = lbraceC then
      let grp := rest2.takeWhile notRB
      let rest := rest2.dropWhile notRB
      if grp ≠ [] ∧ rest.take 2 = [rbraceC, rbraceC] then
        replToken ctx grp ++ renderAux fuel ctx (rest.drop 2)
      else c :: renderAux fuel ctx (c2 :: rest2)
    else c :: renderAux fuel ctx (c2 :: rest2)

/-- Embedding of `TOKEN.sub(repl, value)` on a character list. -/
def renderChars (ctx : Value) (l : List Char) : List Char :=
  renderAux l.length ctx l

/-- String-level rendering, as applied by `render_template` to `str` values. -/
def render_string (s : String) (ctx : Value) : String :=
  String.mk (renderChars ctx s.data)

mutual
/-- Embedding of `rule_engine.render_template`: dicts and lists render
recursively, strings go through token substitution, all other scalars are
returned unchanged. -/
def render_template : Value → Value → Value
  | .dict es, ctx => .dict (renderEntries es ctx)
  | .list xs, ctx => .list (renderList xs ctx)
  | .str s, ctx => .str (render_string s ctx)
  | v, _ => v

/-- Recursive rendering of list elements. -/
def renderList : List Value → Value → List Value
  | [], _ => []
  | v :: vs, ctx => render_template v ctx :: renderList vs ctx

/-- Recursive rendering of dict values (keys are untouched). -/
def renderEntries : List (String × Value) → Value → List (String × Value)
  | [], _ => []
  | (k, v) :: es, ctx => (k, render_template v ctx) :: renderEntries es ctx
end

/-- Does the scanner find any substitutable token in the string?  Same
match condition as `renderAux`, but purely structural. -/
def hasToken : List Char → Bool
  | [] => false
  | [_] => false
  | c :: c2 :: rest2 =>
    if c = lbraceC ∧ c2 = lbraceC then
      let grp := rest2.takeWhile notRB
      let rest := rest2.dropWhile notRB
      if grp ≠ [] ∧ rest.take 2 = [rbraceC, rbraceC] then true
      else hasToken (c2 :: rest2)
    else hasToken (c2 :: rest2)

mutual
/-- Token-freedom of a whole value: every string in it is token-free. -/
def tokenFreeV : Value → Bool
  | .str s => ! hasToken s.data
  | .list xs => tokenFreeL xs
  | .dict es => tokenFreeE es
  | _ => true

/-- Token-freedom of every element of a list. -/
def tokenFreeL : List Value → Bool
  | [] => true
  | v :: vs => tokenFreeV v && tokenFreeL vs

/-- Token-freedom of every dict value. -/
def tokenFreeE : List (String × Value) → Bool
  | [] => true
  | (_, v) :: es => tokenFreeV v && tokenFreeE es
end

/-- One stored rule row, as read by the fan-out consumer. -/
structure Rule where
  id : Nat
  enabled : Bool
  matchSource : Option String
  matchType : Option String
deriving DecidableEq, Repr

/-- The `event.ingested` message body consumed by the worker. -/
structure EventMsg where
  eventId : Nat
  source : String
  type : String
  subject : Value
  payload : Value
  occurredAt : Option Value

/-- Embedding of `rule_engine.match_rule`: the rule must be enabled, and
each present match field must equal the event's field. -/
def match_rule (rule : Rule) (event : EventMsg) : Bool :=
  if ! rule.enabled then false
  else if (match rule.matchSource with
           | some s => s != event.source
           | none => false) then false
  else if (match rule.matchType with
           | some t => t != event.type
           | none => false) then false
  else true

/-- Status column of an `events` row. -/
inductive EventStatus where
  | ACCEPTED | PROCESSING | DONE | FAILED
deriving DecidableEq, Repr

/-- Status column of a `jobs` row. -/
inductive JobStatus where
  | QUEUED | PROCESSING | SUCCEEDED | FAILED | DEAD
deriving DecidableEq, Repr

/-- Status column of a `job_attempts` row. -/
inductive AttStatus where
  | SUCCEEDED | FAILED
deriving DecidableEq, Repr

/-- One `events` row (the columns the worker touches). -/
structure EventRow where
  id : Nat
  status : EventStatus
deriving DecidableEq

/-- One `rule_actions` row. -/
structure RuleAction where
  id : Nat
  ruleId : Nat
  kind : String
  config : Value
  orderNo : Nat
deriving DecidableEq

/-- One `jobs` row. -/
structure Job where
  id : Nat
  eventId : Nat
  ruleId : Nat
  actionId : Nat
  kind : String
  status : JobStatus
  attempts : Nat
  maxAttempts : Nat
  payload : Value
  lastError : Option String
  nextRunAt : Option Nat
deriving DecidableEq

/-- One `job_attempts` row. -/
structure AttemptRow where
  jobId : Nat
  attemptNo : Nat
  status : AttStatus
  error : Option String
  result : Option Value
deriving DecidableEq

/-- The database state the worker operates on.  `nextJobId` models the
id sequence behind `INSERT ... RETURNING id`. -/
structure DB where
  events : List EventRow
  rules : List Rule
  ruleActions : List RuleAction
  jobs : List Job
  jobAttempts : List AttemptRow
  nextJobId : Nat
deriving DecidableEq

/-- Env default `MAX_ATTEMPTS_DEFAULT`. -/
def MAX_ATTEMPTS_DEFAULT : Nat := 3

/-- Env default `RETRY_BACKOFF_SECONDS`. -/
def RETRY_BACKOFF_SECONDS : Nat := 5

/-- SQL `UPDATE events SET ... WHERE id = eid` on the row list. -/
def updateEvents (events : List EventRow) (eid : Nat) (f : EventRow → EventRow) :
    List EventRow :=
  events.map (fun e => if e.id = eid then f e else e)

/-- SQL `UPDATE jobs SET ... WHERE id = jid` on the row list. -/
def updateJobs (jobs : List Job) (jid : Nat) (f : Job → Job) : List Job :=
  jobs.map (fun j => if j.id = jid then f j else j)

/-- SQL `SELECT * FROM jobs WHERE id = jid`. -/
def findJob (db : DB) (jid : Nat) : Option Job :=
  db.jobs.find? (fun j => j.id == jid)

/-- Status of the `events` row with the given id, when present. -/
def eventStatus (db : DB) (eid : Nat) : Option EventStatus :=
  (db.events.find? (fun e => e.id == eid)).map (·.status)

/-- All `jobs` rows owned by one event. -/
def jobsOfEvent (db : DB) (eid : Nat) : List Job :=
  db.jobs.filter (fun j => j.eventId == eid)

/-- All `job_attempts` rows of one job. -/
def attemptsOfJob (db : DB) (jid : Nat) : List AttemptRow :=
  db.jobAttempts.filter (fun a => a.jobId == jid)

/-- Ordering key of `SELECT ... FROM rule_actions ORDER BY rule_id, order_no`. -/
def actLE (a b : RuleAction) : Bool :=
  a.ruleId < b.ruleId || (a.ruleId == b.ruleId && a.orderNo ≤ b.orderNo)

/-- Insertion into a sorted action list. -/
def insertAct (a : RuleAction) : List RuleAction → List RuleAction
  | [] => [a]
  | b :: bs => if actLE a b then a :: b :: bs else b :: insertAct a bs

/-- Stable sort of the `rule_actions` read, by `(rule_id, order_no)`. -/
def sortActs : List RuleAction → List RuleAction
  | [] => []
  | a :: as_ => insertAct a (sortActs as_)

/-- The template context `create_jobs_for_event` builds from the event
message (`event.get` of a missing `occurredAt` is Python `None`). -/
def buildCtx (ev : EventMsg) : Value :=
  .dict [("eventId", .str (toString ev.eventId)),
         ("source", .str ev.source),
         ("type", .str ev.type),
         ("subject", ev.subject),
         ("payload", ev.payload),
         ("occurredAt", ev.occurredAt.getD .null)]

/-- SQL `INSERT INTO jobs(...) VALUES (..., QUEUED, 0, MAX_ATTEMPTS_DEFAULT,
payload, ...) RETURNING id`. -/
def insertJob (db : DB) (eid rid aid : Nat) (kind : String) (payload : Value) :
    DB × Nat :=
  let j : Job :=
    { id := db.nextJobId, eventId := eid, ruleId := rid, actionId := aid,
      kind := kind, status := .QUEUED, attempts := 0,
      maxAttempts := MAX_ATTEMPTS_DEFAULT, payload := payload,
      lastError := none, nextRunAt := none }
  ({ db with jobs := db.jobs ++ [j], nextJobId := db.nextJobId + 1 }, j.id)

/-- Embedding of `worker.create_jobs_for_event`: mark the event
PROCESSING, read the enabled rules and the sorted actions, and for every
matching rule insert one QUEUED job per action with the rendered config.
Returns the new database and the created job ids (which `on_event` then
publishes; publishing does not touch the database). -/
def create_jobs_for_event (db : DB) (ev : EventMsg) : DB × List Nat :=
  let ctx := buildCtx ev
  let db0 := { db with
    events := updateEvents db.events ev.eventId (fun e => { e with status := .PROCESSING }) }
  let enabled := db0.rules.filter (·.enabled)
  let acts := sortActs db0.ruleActions
  enabled.foldl
    (fun (acc : DB × List Nat) r =>
      if match_rule r ev then
        (acts.filter (fun a => a.ruleId == r.id)).foldl
          (fun (acc2 : DB × List Nat) a =>
            let payload := render_template a.config ctx
            let (db', jid) := insertJob acc2.1 ev.eventId r.id a.id a.kind payload
            (db', acc2.2 ++ [jid]))
          acc
      else acc)
    (db0, [])

/-- Outcome of `worker.execute` (Phase B runs outside any transaction and
performs console or HTTP I/O; its result is passed in explicitly).  `ok`
carries the structured result object, `err` the exception message and the
structured result attached to a `WebhookCallError` when there is one. -/
inductive ExecOutcome where
  | ok (result : Value)
  | err (msg : String) (result : Option Value)

/-- Embedding of `worker.record_success`: append a SUCCEEDED attempt row
numbered `job.attempts + 1` and set the job's status to SUCCEEDED.  As in
the source, neither `attempts` nor `next_run_at` is updated. -/
def record_success (db : DB) (jobId : Nat) (job : Job) (resultObj : Value) : DB :=
  { db with
    jobAttempts := db.jobAttempts ++
      [{ jobId := jobId, attemptNo := job.attempts + 1, status := .SUCCEEDED,
         error := none, result := some resultObj }],
    jobs := updateJobs db.jobs jobId (fun j => { j with status := .SUCCEEDED }) }

/-- Embedding of `worker.fail_job`: append a FAILED attempt row numbered
`job.attempts + 1`, then update the job to DEAD (clearing `next_run_at`)
when the attempt count reaches `max_attempts`, else to FAILED with
`next_run_at = now + RETRY_BACKOFF_SECONDS`. -/
def fail_job (db : DB) (jobId : Nat) (job : Job) (error : String)
    (resultObj : Option Value) (now : Nat) : DB :=
  let nextAttempt := job.attempts + 1
  let isDead : Bool := nextAttempt ≥ job.maxAttempts
  let nextRun := now + RETRY_BACKOFF_SECONDS
  { db with
    jobAttempts := db.jobAttempts ++
      [{ jobId := jobId, attemptNo := nextAttempt, status := .FAILED,
         error := some error, result := some (resultObj.getD (.dict [])) }],
    jobs := updateJobs db.jobs jobId (fun j =>
      { j with
        status := if isDead then .DEAD else .FAILED,
        attempts := nextAttempt,
        lastError := some error,
        nextRunAt := if isDead then none else some nextRun }) }

/-- Embedding of `worker.finalize_event`: one SQL UPDATE deriving the
event status from its child jobs — FAILED when any child is DEAD,
unchanged when any child is QUEUED, PROCESSING or FAILED, else DONE. -/
def finalize_event (db : DB) (eventId : Nat) : DB :=
  { db with
    events := updateEvents db.events eventId (fun e =>
      { e with status :=
          if db.jobs.any (fun j => j.eventId == eventId && j.status == .DEAD) then
            .FAILED
          else if db.jobs.any (fun j => j.eventId == eventId &&
              (j.status == .QUEUED || j.status == .PROCESSING || j.status == .FAILED)) then
            e.status
          else .DONE }) }

/-- Embedding of `worker.run_job`.  Phase A: fetch the row; return
unchanged if absent, not in QUEUED/FAILED, or scheduled in the future;
otherwise mark it PROCESSING (the snapshot `job` read before the update is
what Phases B and C use, as in the source).  Phase B's I/O result is the
`outcome` parameter.  Phase C: on success, `record_success` then
`finalize_event`; on failure, `fail_job` only. -/
def run_job (db : DB) (jobId : Nat) (outcome : ExecOutcome) (now : Nat) : DB :=
  match findJob db jobId with
  | none => db
  | some job =>
    if job.status ≠ .QUEUED ∧ job.status ≠ .FAILED then db
    else if (match job.nextRunAt with
             | some t => t > now
             | none => false : Bool) then db
    else
      let db1 := { db with
        jobs := updateJobs db.jobs jobId (fun j => { j with status := .PROCESSING }) }
      match outcome with
      | .ok resultObj => finalize_event (record_success db1 jobId job resultObj) job.eventId
      | .err msg resultObj => fail_job db1 jobId job msg resultObj now

/-- Ordering of the retry scan, `ORDER BY next_run_at ASC`. -/
def scanLE (a b : Job) : Bool :=
  (a.nextRunAt.getD 0) ≤ (b.nextRunAt.getD 0)

/-- Insertion into a list sorted by `next_run_at`. -/
def insertScan (a : Job) : List Job → List Job
  | [] => [a]
  | b :: bs => if scanLE a b then a :: b :: bs else b :: insertScan a bs

/-- Stable sort by `next_run_at`. -/
def sortScan : List Job → List Job
  | [] => []
  | a :: as_ => insertScan a (sortScan as_)

/-- Embedding of `worker.scan_and_enqueue`: select up to 50 FAILED jobs
whose `next_run_at` has elapsed, push each selected row's `next_run_at`
sixty seconds into the future (only while still FAILED), and return the
selected ids (which the source then publishes). -/
def scan_and_enqueue (db : DB) (now : Nat) : DB × List Nat :=
  let eligible := db.jobs.filter (fun j =>
    j.status == .FAILED &&
    (match j.nextRunAt with
     | some t => t ≤ now
     | none => false))
  let rows := ((sortScan eligible).take 50).map (·.id)
  let db' := { db with
    jobs := rows.foldl
      (fun js r => js.map (fun j =>
        if j.id = r ∧ j.status = .FAILED then { j with nextRunAt := some (now + 60) }
        else j))
      db.jobs }
  (db', rows)

/-- State column values of a `webhook_circuit` row. -/
inductive CBState where
  | CLOSED | OPEN
deriving DecidableEq, Repr

/-- One `webhook_circuit` row (the columns the client touches). -/
structure Circuit where
  state : CBState
  failureCount : Nat
  openedAt : Option Nat
  lastFailureAt : Option Nat
deriving DecidableEq, Repr

/-- The row installed by `call_webhook`'s upsert,
`INSERT ... VALUES (key, CLOSED, 0, now()) ON CONFLICT DO NOTHING`. -/
def initCircuit : Circuit :=
  { state := .CLOSED, failureCount := 0, openedAt := none, lastFailureAt := none }

/-- Embedding of `webhook_client._on_success`: reset the row to CLOSED
with zero failures and no timestamps. -/
def cbOnSuccess (_c : Circuit) : Circuit :=
  { state := .CLOSED, failureCount := 0, openedAt := none, lastFailureAt := none }

/-- Embedding of `webhook_client._on_failure`: increment the failure
count; at or above `CB_FAILURE_THRESHOLD` the row becomes OPEN with
`opened_at = now()`, otherwise only the count and failure time change. -/
def cbOnFailure (threshold : Nat) (now : Nat) (c : Circuit) : Circuit :=
  let fc := c.failureCount + 1
  if fc ≥ threshold then
    { state := .OPEN, failureCount := fc, openedAt := some now,
      lastFailureAt := some now }
  else
    { c with failureCount := fc, lastFailureAt := some now }

/-- Circuit rows reachable through `call_webhook`: the upsert default,
plus `_on_success` / `_on_failure` steps.  Both callbacks run only when
the breaker was not OPEN at the check, since an OPEN row makes
`call_webhook` raise CIRCUIT_OPEN before the request loop. -/
inductive CBReach (threshold : Nat) : Circuit → Prop where
  | init : CBReach threshold initCircuit
  | success (c : Circuit) (h : CBReach threshold c) (hguard : c.state ≠ .OPEN) :
      CBReach threshold (cbOnSuccess c)
  | failure (c : Circuit) (now : Nat) (h : CBReach threshold c)
      (hguard : c.state ≠ .OPEN) :
      CBReach threshold (cbOnFailure threshold now c)

/-- Iterated consecutive final-call failures starting from the fresh row. -/
def cbFailN (threshold now : Nat) : Nat → Circuit
  | 0 => initCircuit
  | k + 1 => cbOnFailure threshold now (cbFailN threshold now k)

/-- Dropping according to a predicate never lengthens a list. -/
theorem dropWhile_length_le (p : Char → Bool) (l : List Char) :
    (l.dropWhile p).length ≤ l.length := by
  induction l with
  | nil => simp
  | cons c l ih =>
    rw [List.dropWhile_cons]
    split
    · simp only [List.length_cons]
      omega
    · exact le_rfl

/-- Scanning the empty string yields the empty string for any fuel. -/
theorem renderAux_nil (ctx : Value) (f : Nat) : renderAux f ctx [] = [] := by
  cases f <;> rfl

/-- Scanning a one-character string is the identity for any fuel. -/
theorem renderAux_single (ctx : Value) (c : Char) (f : Nat) :
    renderAux f ctx [c] = [c] := by
  cases f <;> rfl

/-- The scan result does not depend on the fuel, as long as the fuel is at
least the input length. -/
theorem renderAux_congr (ctx : Value) :
    ∀ (n f g : Nat) (l : List Char), l.length ≤ n → l.length ≤ f → l.length ≤ g →
      renderAux f ctx l = renderAux g ctx l := by
  intro n
  induction n with
  | zero =>
    intro f g l hn _ _
    have : l = [] := List.length_eq_zero.mp (Nat.le_zero.mp hn)
    subst this
    rw [renderAux_nil, renderAux_nil]
  | succ n ih =>
    intro f g l hn hf hg
    match l with
    | [] => rw [renderAux_nil, renderAux_nil]
    | [c] => rw [renderAux_single, renderAux_single]
    | c :: c2 :: rest2 =>
      simp only [List.length_cons] at hn hf hg
      obtain ⟨f1, rfl⟩ : ∃ f1, f = f1 + 1 := ⟨f - 1, by omega⟩
      obtain ⟨g1, rfl⟩ : ∃ g1, g = g1 + 1 := ⟨g - 1, by omega⟩
      simp only [renderAux]
      have hdw := dropWhile_length_le notRB rest2
      split
      · split
        · congr 1
          exact ih f1 g1 _ (by simp [List.length_drop]; omega)
            (by simp [List.length_drop]; omega) (by simp [List.length_drop]; omega)
        · congr 1
          exact ih f1 g1 _ (by simp; omega) (by simp; omega) (by simp; omega)
      · congr 1
        exact ih f1 g1 _ (by simp; omega) (by simp; omega) (by simp; omega)

/-- One unfolding step of the scanner on a string of length at least two. -/
theorem renderChars_cons₂ (ctx : Value) (c c2 : Char) (rest2 : List Char) :
    renderChars ctx (c :: c2 :: rest2) =
      if c = lbraceC ∧ c2 = lbraceC then
        if (rest2.takeWhile notRB) ≠ [] ∧
            ((rest2.dropWhile notRB).take 2 = [rbraceC, rbraceC]) then
          replToken ctx (rest2.takeWhile notRB) ++
            renderChars ctx ((rest2.dropWhile notRB).drop 2)
        else c :: renderChars ctx (c2 :: rest2)
      else c :: renderChars ctx (c2 :: rest2)
    := by
  have hdw := dropWhile_length_le notRB rest2
  show renderAux (rest2.length + 1 + 1) ctx (c :: c2 :: rest2) = _
  simp only [renderAux]
  split
  · split
    · congr 1
      exact renderAux_congr ctx (rest2.length + 1) _ _ _
        (by simp [List.length_drop]; omega) (by simp [List.length_drop]; omega)
        (le_of_eq rfl)
    · rfl
  · rfl

/-- Scanner step when the position does not start with two left braces. -/
theorem renderChars_cons_of_ne (ctx : Value) (c c2 : Char) (rest2 : List Char)
    (h : ¬ (c = lbraceC ∧ c2 = lbraceC)) :
    renderChars ctx (c :: c2 :: rest2) = c :: renderChars ctx (c2 :: rest2) := by
  rw [renderChars_cons₂, if_neg h]

/-- Scanner step when two left braces are not followed by a full token. -/
theorem renderChars_cons_of_fail (ctx : Value) (c c2 : Char) (rest2 : List Char)
    (hb : c = lbraceC ∧ c2 = lbraceC)
    (h : ¬ ((rest2.takeWhile notRB) ≠ [] ∧
        ((rest2.dropWhile notRB).take 2 = [rbraceC, rbraceC]))) :
    renderChars ctx (c :: c2 :: rest2) = c :: renderChars ctx (c2 :: rest2) := by
  rw [renderChars_cons₂, if_pos hb, if_neg h]

/-- Scanner step on a full token match. -/
theorem renderChars_cons_of_token (ctx : Value) (c c2 : Char) (rest2 : List Char)
    (hb : c = lbraceC ∧ c2 = lbraceC)
    (h : (rest2.takeWhile notRB) ≠ [] ∧
        ((rest2.dropWhile notRB).take 2 = [rbraceC, rbraceC])) :
    renderChars ctx (c :: c2 :: rest2) =
      replToken ctx (rest2.takeWhile notRB) ++
        renderChars ctx ((rest2.dropWhile notRB).drop 2) := by
  rw [renderChars_cons₂, if_pos hb, if_pos h]

/-- Taking while a predicate holds stops exactly at the first failure. -/
theorem takeWhile_append_of_forall (q : Char → Bool) (p : List Char) (d : Char)
    (b : List Char) (hall : ∀ c ∈ p, q c = true) (hd : q d = false) :
    (p ++ d :: b).takeWhile q = p := by
  induction p with
  | nil => simp [List.takeWhile_cons, hd]
  | cons c p ih =>
    simp only [List.cons_append, List.takeWhile_cons, hall c (by simp), if_pos]
    rw [ih (fun c hc => hall c (by simp [hc]))]

/-- Dropping while a predicate holds stops exactly at the first failure. -/
theorem dropWhile_append_of_forall (q : Char → Bool) (p : List Char) (d : Char)
    (b : List Char) (hall : ∀ c ∈ p, q c = true) (hd : q d = false) :
    (p ++ d :: b).dropWhile q = d :: b := by
  induction p with
  | nil => simp [List.dropWhile_cons, hd]
  | cons c p ih =>
    simp only [List.cons_append, List.dropWhile_cons, hall c (by simp), if_pos]
    exact ih (fun c hc => hall c (by simp [hc]))

/-- Substitution of one leading token: the scanner replaces the token with
`replToken` of its group and continues after the closing braces. -/
theorem renderChars_token (ctx : Value) (p b : List Char)
    (hne : p ≠ []) (hnb : ∀ c ∈ p, c ≠ rbraceC) :
    renderChars ctx (lbraceC :: lbraceC :: (p ++ rbraceC :: rbraceC :: b)) =
      replToken ctx p ++ renderChars ctx b := by
  have hall : ∀ c ∈ p, notRB c = true := by
    intro c hc
    simpa [notRB] using hnb c hc
  have hd : notRB rbraceC = false := by simp [notRB]
  have htw : (p ++ rbraceC :: rbraceC :: b).takeWhile notRB = p :=
    takeWhile_append_of_forall _ p rbraceC (rbraceC :: b) hall hd
  have hdw : (p ++ rbraceC :: rbraceC :: b).dropWhile notRB =
      rbraceC :: rbraceC :: b :=
    dropWhile_append_of_forall _ p rbraceC (rbraceC :: b) hall hd
  rw [renderChars_cons_of_token ctx _ _ _ ⟨rfl, rfl⟩ (by rw [htw, hdw]; simp [hne]),
    htw, hdw]
  simp

/-- Rendering a string in which the scanner finds no token is the
identity. -/
theorem renderChars_eq_self_of_not_hasToken (ctx : Value) :
    ∀ (n : Nat) (l : List Char), l.length ≤ n → hasToken l = false →
      renderChars ctx l = l := by
  intro n
  induction n with
  | zero =>
    intro l hn _
    have : l = [] := List.length_eq_zero.mp (Nat.le_zero.mp hn)
    subst this; rfl
  | succ n ih =>
    intro l hn h
    match l with
    | [] => rfl
    | [c] => exact renderAux_single ctx c 1
    | c :: c2 :: rest2 =>
      simp only [List.length_cons] at hn
      simp only [hasToken] at h
      by_cases hb : c = lbraceC ∧ c2 = lbraceC
      · rw [if_pos hb] at h
        by_cases ht : (rest2.takeWhile notRB) ≠ [] ∧
            ((rest2.dropWhile notRB).take 2 = [rbraceC, rbraceC])
        · rw [if_pos ht] at h; exact absurd h (by simp)
        · rw [if_neg ht] at h
          rw [renderChars_cons_of_fail ctx c c2 rest2 hb ht,
            ih (c2 :: rest2) (by simp; omega) h]
      · rw [if_neg hb] at h
        rw [renderChars_cons_of_ne ctx c c2 rest2 hb,
          ih (c2 :: rest2) (by simp; omega) h]

/-- Token-free strings are fixed points of string rendering. -/
theorem renderChars_id (ctx : Value) (l : List Char) (h : hasToken l = false) :
    renderChars ctx l = l :=
  renderChars_eq_self_of_not_hasToken ctx l.length l le_rfl h

mutual
/-- Token-free values are fixed points of template rendering. -/
theorem render_template_fix : ∀ (v ctx : Value), tokenFreeV v = true →
    render_template v ctx = v
  | .null, _, _ => rfl
  | .bool _, _, _ => rfl
  | .int _, _, _ => rfl
  | .str s, ctx, h => by
    have hh : hasToken s.data = false := by simpa [tokenFreeV] using h
    show Value.str (render_string s ctx) = Value.str s
    rw [render_string, renderChars_id ctx s.data hh]
  | .list xs, ctx, h => by
    have hh : tokenFreeL xs = true := by simpa [tokenFreeV] using h
    show Value.list (renderList xs ctx) = Value.list xs
    rw [renderList_fix xs ctx hh]
  | .dict es, ctx, h => by
    have hh : tokenFreeE es = true := by simpa [tokenFreeV] using h
    show Value.dict (renderEntries es ctx) = Value.dict es
    rw [renderEntries_fix es ctx hh]

/-- Token-free value lists are fixed points of list rendering. -/
theorem renderList_fix : ∀ (xs : List Value) (ctx : Value), tokenFreeL xs = true →
    renderList xs ctx = xs
  | [], _, _ => rfl
  | v :: vs, ctx, h => by
    have h' : tokenFreeV v = true ∧ tokenFreeL vs = true := by
      simpa [tokenFreeL, Bool.and_eq_true] using h
    simp only [renderList, render_template_fix v ctx h'.1, renderList_fix vs ctx h'.2]

/-- Token-free entry lists are fixed points of entry rendering. -/
theorem renderEntries_fix : ∀ (es : List (String × Value)) (ctx : Value),
    tokenFreeE es = true → renderEntries es ctx = es
  | [], _, _ => rfl
  | (k, v) :: es, ctx, h => by
    have h' : tokenFreeV v = true ∧ tokenFreeE es = true := by
      simpa [tokenFreeE, Bool.and_eq_true] using h
    simp only [renderEntries, render_template_fix v ctx h'.1, renderEntries_fix es ctx h'.2]
end

/-- List rendering is elementwise template rendering. -/
theorem renderList_eq_map (xs : List Value) (ctx : Value) :
    renderList xs ctx = xs.map (fun v => render_template v ctx) := by
  induction xs with
  | nil => rfl
  | cons v vs ih => rw [renderList, ih]; rfl

/-- Entry rendering maps template rendering over the values, keeping keys. -/
theorem renderEntries_eq_map (es : List (String × Value)) (ctx : Value) :
    renderEntries es ctx = es.map (fun kv => (kv.1, render_template kv.2 ctx)) := by
  induction es with
  | nil => rfl
  | cons kv es ih => cases kv; rw [renderEntries, ih]; rfl

/-- Looking a job up after a per-id update sees the updated row, for
updates that keep the id. -/
theorem findJob_updateJobs (jobs : List Job) (jid : Nat) (f : Job → Job)
    (hf : ∀ j, (f j).id = j.id) :
    (updateJobs jobs jid f).find? (fun j => j.id == jid) =
      (jobs.find? (fun j => j.id == jid)).map f := by
  induction jobs with
  | nil => rfl
  | cons j js ih =>
    simp only [updateJobs, List.map_cons, List.find?]
    by_cases h : j.id = jid
    · simp [h, hf j]
    · simp only [if_neg h, List.find?_cons,
        show (j.id == jid) = false by simpa using h]
      exact ih

/-- Below the threshold, iterated failures leave the fresh breaker CLOSED
with the failure count equal to the number of failures and no open time. -/
theorem cbFailN_below (threshold now : Nat) :
    ∀ k, k < threshold →
      (cbFailN threshold now k).state = .CLOSED ∧
      (cbFailN threshold now k).failureCount = k ∧
      (cbFailN threshold now k).openedAt = none := by
  intro k
  induction k with
  | zero => intro _; exact ⟨rfl, rfl, rfl⟩
  | succ k ih =>
    intro hk
    obtain ⟨hs, hc, ho⟩ := ih (Nat.lt_of_succ_lt hk)
    have hlt : ¬ ((cbFailN threshold now k).failureCount + 1 ≥ threshold) := by omega
    simp only [cbFailN, cbOnFailure, if_neg hlt]
    exact ⟨hs, by omega, ho⟩

/-- C7: starting from a CLOSED breaker row with zero failures, exactly
`CB_FAILURE_THRESHOLD` consecutive final call failures flip the row to
OPEN with `opened_at` set on that failure, any fewer leave it CLOSED, and
one successful call resets the row to CLOSED with zero failures and no
timestamps. -/
theorem C7_threshold_flips_open (threshold now : Nat) (h : 0 < threshold) :
    (∀ k, k < threshold → (cbFailN threshold now k).state = .CLOSED) ∧
    (cbFailN threshold now threshold).state = .OPEN ∧
    (cbFailN threshold now threshold).openedAt = some now ∧
    (∀ c : Circuit, cbOnSuccess c =
      { state := .CLOSED, failureCount := 0, openedAt := none, lastFailureAt := none }) := by
  obtain ⟨m, rfl⟩ : ∃ m, threshold = m + 1 := ⟨threshold - 1, by omega⟩
  have hm := cbFailN_below (m + 1) now m (Nat.lt_succ_self m)
  refine ⟨fun k hk => (cbFailN_below (m + 1) now k hk).1, ?_, ?_, fun _ => rfl⟩
  · simp only [cbFailN, cbOnFailure, hm.2.1]
    rw [if_pos (by omega)]
  · simp only [cbFailN, cbOnFailure, hm.2.1]
    rw [if_pos (by omega)]

/-- Witness for C7 at the default threshold 3: two failures leave the
breaker CLOSED, the third flips it OPEN with the failure time recorded,
and a success resets it. -/
theorem C7_threshold_flips_open_witness :
    (cbFailN 3 42 2).state = .CLOSED ∧
    (cbFailN 3 42 3).state = .OPEN ∧
    (cbFailN 3 42 3).openedAt = some 42 ∧
    cbOnSuccess (cbFailN 3 42 3) =
      { state := .CLOSED, failureCount := 0, openedAt := none, lastFailureAt := none } := by
  have h := C7_threshold_flips_open 3 42 (by decide)
  exact ⟨h.1 2 (by decide), h.2.1, h.2.2.1, h.2.2.2 _⟩

/-- C5 counterexample: one final-call failure below the threshold yields a
reachable `webhook_circuit` row that is CLOSED with `failure_count = 1`,
refuting `state=CLOSED implies failureCount=0`. -/
theorem C5_closed_with_nonzero_failures :
    (cbOnFailure 3 5 initCircuit).state = .CLOSED ∧
    (cbOnFailure 3 5 initCircuit).failureCount = 1 ∧
    CBReach 3 (cbOnFailure 3 5 initCircuit) := by
  refine ⟨by decide, by decide, ?_⟩
  exact CBReach.failure initCircuit 5 CBReach.init (by decide)

/-- C5 (amended): for every reachable `webhook_circuit` row, OPEN implies
`opened_at` is set, and CLOSED implies `failure_count` below the threshold
(rather than zero) and `opened_at` NULL. -/
theorem C5_circuit_invariant_amended (threshold : Nat) (h0 : 0 < threshold)
    (c : Circuit) (hr : CBReach threshold c) :
    (c.state = .OPEN → c.openedAt ≠ none) ∧
    (c.state = .CLOSED → c.failureCount < threshold ∧ c.openedAt = none) := by
  induction hr with
  | init =>
    refine ⟨fun hs => ?_, fun _ => ⟨h0, rfl⟩⟩
    simp [initCircuit] at hs
  | success c h hguard ih =>
    refine ⟨fun hs => ?_, fun _ => ⟨h0, rfl⟩⟩
    simp [cbOnSuccess] at hs
  | failure c now h hguard ih =>
    have hcl : c.state = .CLOSED := by
      cases hs : c.state
      · rfl
      · exact absurd hs hguard
    by_cases hge : c.failureCount + 1 ≥ threshold
    · refine ⟨fun _ => ?_, fun hs => ?_⟩
      · simp [cbOnFailure, if_pos hge]
      · rw [cbOnFailure] at hs
        simp only [if_pos hge] at hs
        exact absurd hs (by simp)
    · refine ⟨fun hs => ?_, fun _ => ?_⟩
      · rw [cbOnFailure] at hs
        simp only [if_neg hge] at hs
        exact absurd (hcl ▸ hs) (by simp)
      · have := (ih.2 hcl).2
        simp only [cbOnFailure, if_neg hge]
        exact ⟨by omega, this⟩

/-- Witness for the amended C5 invariant on the row reached by one failure
at threshold 3: the CLOSED row has fewer than three failures and a NULL
`opened_at`. -/
theorem C5_circuit_invariant_amended_witness :
    (cbOnFailure 3 5 initCircuit).failureCount < 3 ∧
    (cbOnFailure 3 5 initCircuit).openedAt = none :=
  (C5_circuit_invariant_amended 3 (by decide) (cbOnFailure 3 5 initCircuit)
    (CBReach.failure initCircuit 5 CBReach.init (by decide))).2 rfl

/-- C6: for every job snapshot with `attempts = a` and `maxAttempts = m`
whose execution fails, `fail_job` appends a FAILED `job_attempts` row with
`attemptNo = a + 1` and updates the job row to DEAD with NULL
`next_run_at` when `a + 1 ≥ m`, else to FAILED with `attempts = a + 1` and
`next_run_at = now + RETRY_BACKOFF_SECONDS`; in particular a job with
`maxAttempts = 1` and no prior attempts that fails goes straight to DEAD
with NULL `next_run_at`. -/
theorem C6_fail_job_spec (db : DB) (jobId : Nat) (job j0 : Job) (er : String)
    (ro : Option Value) (now : Nat) (hfind : findJob db jobId = some j0) :
    (fail_job db jobId job er ro now).jobAttempts =
      db.jobAttempts ++
        [{ jobId := jobId, attemptNo := job.attempts + 1, status := .FAILED,
           error := some er, result := some (ro.getD (.dict [])) }] ∧
    findJob (fail_job db jobId job er ro now) jobId =
      some { j0 with
        status := if job.maxAttempts ≤ job.attempts + 1 then .DEAD else .FAILED,
        attempts := job.attempts + 1,
        lastError := some er,
        nextRunAt := if job.maxAttempts ≤ job.attempts + 1 then none
          else some (now + RETRY_BACKOFF_SECONDS) } ∧
    (job.maxAttempts = 1 →
      findJob (fail_job db jobId job er ro now) jobId =
        some { j0 with status := .DEAD, attempts := job.attempts + 1,
                       lastError := some er, nextRunAt := none }) := by
  have hmain : findJob (fail_job db jobId job er ro now) jobId =
      some { j0 with
        status := if job.maxAttempts ≤ job.attempts + 1 then .DEAD else .FAILED,
        attempts := job.attempts + 1,
        lastError := some er,
        nextRunAt := if job.maxAttempts ≤ job.attempts + 1 then none
          else some (now + RETRY_BACKOFF_SECONDS) } := by
    simp only [fail_job, findJob] at hfind ⊢
    rw [findJob_updateJobs db.jobs jobId
      (fun j =>
        { j with
          status := if decide (job.attempts + 1 ≥ job.maxAttempts) = true then
              JobStatus.DEAD else JobStatus.FAILED,
          attempts := job.attempts + 1,
          lastError := some er,
          nextRunAt := if decide (job.attempts + 1 ≥ job.maxAttempts) = true then
              none else some (now + RETRY_BACKOFF_SECONDS) })
      (fun j => rfl), hfind]
    by_cases hd : job.maxAttempts ≤ job.attempts + 1
    · simp [ge_iff_le, hd]
    · simp [ge_iff_le, hd]
  refine ⟨by simp [fail_job], hmain, fun h1 => ?_⟩
  rw [hmain, if_pos (by omega), if_pos (by omega)]

/-- One-job database used to witness the `fail_job` specification. -/
def jobC6 : Job :=
  { id := 10, eventId := 1, ruleId := 7, actionId := 5, kind := "WEBHOOK",
    status := .QUEUED, attempts := 0, maxAttempts := 1, payload := .dict [],
    lastError := none, nextRunAt := none }

/-- Database holding `jobC6` and its PROCESSING parent event. -/
def dbC6 : DB :=
  { events := [{ id := 1, status := .PROCESSING }], rules := [], ruleActions := [],
    jobs := [jobC6], jobAttempts := [], nextJobId := 11 }

/-- Witness for C6: in the concrete database `dbC6`, the job with
`maxAttempts = 1` fails once and lands on DEAD with NULL `next_run_at`
and one FAILED attempt row numbered 1. -/
theorem C6_fail_job_spec_witness :
    (fail_job dbC6 10 jobC6 "HTTP 500" none 100).jobAttempts =
      [{ jobId := 10, attemptNo := 1, status := .FAILED, error := some "HTTP 500",
         result := some (.dict []) }] ∧
    findJob (fail_job dbC6 10 jobC6 "HTTP 500" none 100) 10 =
      some { jobC6 with status := .DEAD, attempts := 1,
                        lastError := some "HTTP 500", nextRunAt := none } := by
  have h := C6_fail_job_spec dbC6 10 jobC6 jobC6 "HTTP 500" none 100 (by decide)
  exact ⟨h.1.trans (by decide), (h.2.2 rfl).trans (by decide)⟩

/-- Event message used for the no-matching-rule scenario. -/
def evC1 : EventMsg :=
  { eventId := 1, source := "iot", type := "temp.high",
    subject := .dict [("kind", .str "sensor"), ("id", .str "S-9")],
    payload := .dict [], occurredAt := none }

/-- Database with one ACCEPTED event and one enabled rule whose
`match_source` differs from the event's source, so nothing matches. -/
def dbC1 : DB :=
  { events := [{ id := 1, status := .ACCEPTED }],
    rules := [{ id := 7, enabled := true, matchSource := some "other", matchType := none }],
    ruleActions := [{ id := 5, ruleId := 7, kind := "EMAIL",
                      config := .dict [("to", .str "ops")], orderNo := 0 }],
    jobs := [], jobAttempts := [], nextJobId := 100 }

/-- C1: processing the `event.ingested` delivery of an event that matches
no enabled rule creates zero `jobs` rows, but leaves the event PROCESSING
rather than driving it to DONE: `on_event` publishes nothing and nothing
on the ingest path invokes `finalize_event`.  The final conjunct shows
that `finalize_event`, had it been invoked, would indeed derive DONE for
the zero-children event, as the claim expects. -/
theorem C1_no_match_event_left_processing :
    (create_jobs_for_event dbC1 evC1).2 = [] ∧
    (create_jobs_for_event dbC1 evC1).1.jobs = [] ∧
    eventStatus (create_jobs_for_event dbC1 evC1).1 1 = some .PROCESSING ∧
    eventStatus (create_jobs_for_event dbC1 evC1).1 1 ≠ some .DONE ∧
    eventStatus (finalize_event (create_jobs_for_event dbC1 evC1).1 1) 1 = some .DONE := by
  decide

/-- One QUEUED job with `maxAttempts = 1` under a PROCESSING event. -/
def dbC2 : DB :=
  { events := [{ id := 1, status := .PROCESSING }], rules := [], ruleActions := [],
    jobs := [{ id := 10, eventId := 1, ruleId := 7, actionId := 5, kind := "WEBHOOK",
               status := .QUEUED, attempts := 0, maxAttempts := 1, payload := .dict [],
               lastError := none, nextRunAt := none }],
    jobAttempts := [], nextJobId := 11 }

/-- C2: when the executor processes a job whose execution fails and the
job becomes DEAD, the owning event's status does not become FAILED — the
failure branch of `run_job` never calls `finalize_event`, so the event
stays PROCESSING.  The final conjunct shows `finalize_event` would derive
FAILED from the DEAD child had it been invoked, as the claim expects. -/
theorem C2_dead_job_event_not_failed :
    (findJob (run_job dbC2 10 (.err "HTTP 500" none) 0) 10).map (fun j => j.status) =
      some .DEAD ∧
    eventStatus (run_job dbC2 10 (.err "HTTP 500" none) 0) 1 = some .PROCESSING ∧
    eventStatus (run_job dbC2 10 (.err "HTTP 500" none) 0) 1 ≠ some .FAILED ∧
    eventStatus (finalize_event (run_job dbC2 10 (.err "HTTP 500" none) 0) 1) 1 =
      some .FAILED := by
  decide

/-- One QUEUED job with `maxAttempts = 3` under a PROCESSING event. -/
def dbC3 : DB :=
  { events := [{ id := 1, status := .PROCESSING }], rules := [], ruleActions := [],
    jobs := [{ id := 10, eventId := 1, ruleId := 7, actionId := 5, kind := "WEBHOOK",
               status := .QUEUED, attempts := 0, maxAttempts := 3, payload := .dict [],
               lastError := none, nextRunAt := none }],
    jobAttempts := [], nextJobId := 11 }

/-- C3: a job that succeeds on its first execution is terminal
(SUCCEEDED) with one `job_attempts` row whose `attemptNo` is 1, yet its
`attempts` column still reads 0 — `record_success` never increments
`attempts`, so neither `attempts = count(job_attempts)` nor `attemptNo of
the final row = attempts` holds for SUCCEEDED jobs. -/
theorem C3_succeeded_job_attempt_count_mismatch :
    (findJob (run_job dbC3 10 (.ok (.dict [])) 0) 10).map (fun j => j.status) =
      some .SUCCEEDED ∧
    (findJob (run_job dbC3 10 (.ok (.dict [])) 0) 10).map (fun j => j.attempts) =
      some 0 ∧
    (attemptsOfJob (run_job dbC3 10 (.ok (.dict [])) 0) 10).length = 1 ∧
    (attemptsOfJob (run_job dbC3 10 (.ok (.dict [])) 0) 10).map (fun a => a.attemptNo) =
      [1] ∧
    (findJob (run_job dbC3 10 (.ok (.dict [])) 0) 10).map (fun j => j.attempts) ≠
      some (attemptsOfJob (run_job dbC3 10 (.ok (.dict [])) 0) 10).length := by
  decide

/-- One FAILED job with backoff expiry at time 5 (it failed once at time
0), plus its recorded first attempt, under a PROCESSING event. -/
def dbC4 : DB :=
  { events := [{ id := 1, status := .PROCESSING }], rules := [], ruleActions := [],
    jobs := [{ id := 10, eventId := 1, ruleId := 7, actionId := 5, kind := "WEBHOOK",
               status := .FAILED, attempts := 1, maxAttempts := 3, payload := .dict [],
               lastError := some "HTTP 500", nextRunAt := some 5 }],
    jobAttempts := [{ jobId := 10, attemptNo := 1, status := .FAILED,
                      error := some "HTTP 500", result := some (.dict []) }],
    nextJobId := 11 }

/-- C4: the retry scanner leases the FAILED job at time 10 (pushing
`next_run_at` to 70); when the executor claims the published job at time
80 and it succeeds, neither the claim step of `run_job` nor
`record_success` clears `next_run_at`, so a SUCCEEDED (post-PROCESSING)
job carries the stale non-NULL `next_run_at = 70`, refuting the claim
that `next_run_at` is non-NULL only in status FAILED. -/
theorem C4_next_run_at_survives_claim_and_success :
    (scan_and_enqueue dbC4 10).2 = [10] ∧
    (findJob (scan_and_enqueue dbC4 10).1 10).map (fun j => j.status) = some .FAILED ∧
    (findJob (scan_and_enqueue dbC4 10).1 10).map (fun j => j.nextRunAt) =
      some (some 70) ∧
    (findJob (run_job (scan_and_enqueue dbC4 10).1 10 (.ok (.dict [])) 80) 10).map
        (fun j => j.status) = some .SUCCEEDED ∧
    (findJob (run_job (scan_and_enqueue dbC4 10).1 10 (.ok (.dict [])) 80) 10).map
        (fun j => j.nextRunAt) = some (some 70) ∧
    (findJob (run_job (scan_and_enqueue dbC4 10).1 10 (.ok (.dict [])) 80) 10).map
        (fun j => j.nextRunAt) ≠ some none := by
  decide

/-- C8: `render_template` replaces a `(two braces)path(two braces)` token
whose stripped path does not resolve (missing key or non-map traversal,
both `none` in the embedding) with the empty string and continues with
the rest of the string (never keeping the literal token text); non-string
scalars pass through unchanged; lists and dicts render recursively. -/
theorem C8_render_tokens_spec :
    (∀ (ctx : Value) (p b : List Char), p ≠ [] → (∀ c ∈ p, c ≠ rbraceC) →
      resolve_path ctx (pyStrip p) = none →
      renderChars ctx (lbraceC :: lbraceC :: (p ++ rbraceC :: rbraceC :: b)) =
        renderChars ctx b) ∧
    (∀ (ctx : Value) (n : Int), render_template (.int n) ctx = .int n) ∧
    (∀ (ctx : Value) (b : Bool), render_template (.bool b) ctx = .bool b) ∧
    (∀ ctx : Value, render_template .null ctx = .null) ∧
    (∀ (ctx : Value) (xs : List Value),
      render_template (.list xs) ctx = .list (xs.map (fun v => render_template v ctx))) ∧
    (∀ (ctx : Value) (es : List (String × Value)),
      render_template (.dict es) ctx =
        .dict (es.map (fun kv => (kv.1, render_template kv.2 ctx)))) := by
  refine ⟨?_, fun _ _ => rfl, fun _ _ => rfl, fun _ => rfl, ?_, ?_⟩
  · intro ctx p b hne hnb hres
    rw [renderChars_token ctx p b hne hnb]
    simp [replToken, hres]
  · intro ctx xs
    show Value.list (renderList xs ctx) = _
    rw [renderList_eq_map]
  · intro ctx es
    show Value.dict (renderEntries es ctx) = _
    rw [renderEntries_eq_map]

/-- Witness for C8: the unresolvable token `missing.path` renders to the
empty string in front of the rest of the string, and scalars of each
non-string kind go through unchanged. -/
theorem C8_render_tokens_spec_witness :
    renderChars (.dict [])
        (lbraceC :: lbraceC :: ("missing.path".data ++ rbraceC :: rbraceC :: "tail".data)) =
      renderChars (.dict []) "tail".data ∧
    render_template (.int 5) (.dict []) = .int 5 ∧
    render_template (.bool true) (.dict []) = .bool true ∧
    render_template .null (.dict []) = .null :=
  ⟨C8_render_tokens_spec.1 (.dict []) "missing.path".data "tail".data
      (by decide) (by decide) (by decide),
   C8_render_tokens_spec.2.1 (.dict []) 5,
   C8_render_tokens_spec.2.2.1 (.dict []) true,
   C8_render_tokens_spec.2.2.2.1 (.dict [])⟩

/-- Context whose value for `a` is itself a template token. -/
def ctx9 : Value := .dict [("a", .str "\x7b\x7bb\x7d\x7d"), ("b", .str "1")]

/-- A single-token template over `ctx9`. -/
def t9 : Value := .str "\x7b\x7ba\x7d\x7d"

/-- C9 counterexample: the single token of `t9` resolves to the known
value of key `a`, yet rendering twice differs from rendering once — the
first pass substitutes the token-shaped value, which the second pass then
resolves, so rendering is not idempotent as claimed. -/
theorem C9_idempotence_counterexample :
    resolve_path ctx9 (pyStrip "a".data) = some (.str "\x7b\x7bb\x7d\x7d") ∧
    render_template t9 ctx9 = .str "\x7b\x7bb\x7d\x7d" ∧
    render_template (render_template t9 ctx9) ctx9 = .str "1" ∧
    render_template (render_template t9 ctx9) ctx9 ≠ render_template t9 ctx9 := by
  decide

/-- C9 (amended): rendering is idempotent whenever the rendered result is
token-free, i.e. when no substituted value reintroduces a token: a
token-free value is a fixed point of rendering. -/
theorem C9_idempotent_on_token_free_result (t ctx : Value)
    (h : tokenFreeV (render_template t ctx) = true) :
    render_template (render_template t ctx) ctx = render_template t ctx :=
  render_template_fix (render_template t ctx) ctx h

/-- Witness for the amended C9: a template whose token resolves to a
token-free string renders idempotently. -/
theorem C9_idempotent_on_token_free_result_witness :
    tokenFreeV (render_template (.str "\x7b\x7ba\x7d\x7d") (.dict [("a", .str "hello")])) =
      true ∧
    render_template
        (render_template (.str "\x7b\x7ba\x7d\x7d") (.dict [("a", .str "hello")]))
        (.dict [("a", .str "hello")]) =
      render_template (.str "\x7b\x7ba\x7d\x7d") (.dict [("a", .str "hello")]) :=
  ⟨by decide, C9_idempotent_on_token_free_result _ _ (by decide)⟩

/-- C10: a token whose stripped path resolves to `v` is replaced by
Python `str(v)` when `v` is not null — so booleans render as `True` and
`False` and dicts as Python reprs with single quotes — and by the empty
string when `v` is null, making an explicit null indistinguishable from a
missing path. -/
theorem C10_token_python_str_spec :
    (∀ (ctx : Value) (p b : List Char), p ≠ [] → (∀ c ∈ p, c ≠ rbraceC) →
      renderChars ctx (lbraceC :: lbraceC :: (p ++ rbraceC :: rbraceC :: b)) =
        (match resolve_path ctx (pyStrip p) with
         | some .null => []
         | some v => pyStr v
         | none => []) ++ renderChars ctx b) ∧
    pyStr (.bool true) = "True".data ∧
    pyStr (.bool false) = "False".data ∧
    pyStr (.dict [("a", .int 1)]) = "\x7b\x27a\x27: 1\x7d".data ∧
    render_string "\x7b\x7bx\x7d\x7d" (.dict [("x", .null)]) = "" ∧
    render_string "\x7b\x7bx\x7d\x7d" (.dict []) = "" := by
  refine ⟨?_, by decide, by decide, by decide, by decide, by decide⟩
  intro ctx p b hne hnb
  rw [renderChars_token ctx p b hne hnb]
  congr 1
  cases hres : resolve_path ctx (pyStrip p) with
  | none => simp [replToken, hres]
  | some v => cases v <;> simp [replToken, hres]

/-- Witness for C10: the token `flag` over a context binding `flag` to
Python `True` is replaced by the stringification branch of the claim, and
that replacement is the four characters of `True`. -/
theorem C10_token_python_str_spec_witness :
    renderChars (.dict [("flag", .bool true)])
        (lbraceC :: lbraceC :: ("flag".data ++ rbraceC :: rbraceC :: [])) =
      (match resolve_path (.dict [("flag", .bool true)]) (pyStrip "flag".data) with
       | some .null => []
       | some v => pyStr v
       | none => []) ++ renderChars (.dict [("flag", .bool true)]) [] ∧
    renderChars (.dict [("flag", .bool true)])
        (lbraceC :: lbraceC :: ("flag".data ++ rbraceC :: rbraceC :: [])) =
      "True".data :=
  ⟨C10_token_python_str_spec.1 (.dict [("flag", .bool true)]) "flag".data []
      (by decide) (by decide),
   by decide⟩
